import Mathlib

/-!
Verification of the session core of the Read-to-the-baby toy
(React/TypeScript sources: src/App.tsx, src/types.ts, the constants
module, src/components/BabyMonitor.tsx).

The component App of src/App.tsx is embedded shallowly: its React state
hooks and mutable refs become the fields of SysState, each callback of
the session (channel open/message/close, the audio-processing callback,
the silence-timeout callback, the pause toggle) becomes a pure state
transformer, and the single-threaded callback timeline becomes a list of
timestamped events folded over the state with the function run.

Wall-clock times are naturals (milliseconds, as Date.now), audio-clock
times and chunk durations are rationals (seconds, as the currentTime of
an AudioContext), and sample amplitudes are rationals standing for the
normalized floats of the capture buffer.
-/

namespace ReadToBaby

/-- Mood enumeration, from src/types.ts (BabyState). -/
inductive BabyState
  | SLEEPING
  | CRYING
  | LISTENING
  | HAPPY
  | PAUSED
deriving DecidableEq, Repr

/-- Application mode, from src/types.ts (AppMode). -/
inductive AppMode
  | SETUP
  | ACTIVE
  | ERROR
deriving DecidableEq, Repr

/-- SPEECH_THRESHOLD from the constants module (value 0.05). -/
def SPEECH_THRESHOLD : ℚ := 1/20

/-- SILENCE_TOLERANCE_MS from the constants module (value 2000). -/
def SILENCE_TOLERANCE_MS : Nat := 2000

/-- State of one App component instance: the React state hooks and the
mutable refs of src/App.tsx lines 20 to 39 that the session logic reads
or writes.  silenceDeadline = some d models silenceTimerRef holding a
live timeout armed to fire at absolute wall-clock time d; none models a
cleared or spent timeout (at most one timeout is ever live because every
arming site clears the previous one first).  inFlight models
audioSourcesRef as the list of sequence numbers of the sources currently
playing, seq is the next sequence number, schedLog is the history of the
start times passed to source.start, and decodeErrors counts the decode
errors reported via console.error in the onmessage catch block. -/
structure SysState where
  mode : AppMode
  babyState : BabyState
  isConnected : Bool
  isPaused : Bool
  lastSpeechTime : Nat
  silenceDeadline : Option Nat
  nextStartTime : ℚ
  inFlight : List Nat
  seq : Nat
  schedLog : List ℚ
  decodeErrors : Nat
deriving DecidableEq, Repr

/-- Initial component state (the useState and useRef initialisers of
src/App.tsx lines 20 to 39), for a component mounted at wall-clock time
t0 (lastSpeechTimeRef is initialised to Date.now()). -/
def initState (t0 : Nat) : SysState :=
  { mode := .SETUP
    babyState := .SLEEPING
    isConnected := false
    isPaused := false
    lastSpeechTime := t0
    silenceDeadline := none
    nextStartTime := 0
    inFlight := []
    seq := 0
    schedLog := []
    decodeErrors := 0 }

/-- Sum of squared samples: the accumulation loop of src/App.tsx lines
148 to 151. -/
def sumSquares (frame : List ℚ) : ℚ := (frame.map fun x => x * x).sum

/-- The VAD classification rms > SPEECH_THRESHOLD of src/App.tsx line
155, where rms = Math.sqrt(sum / inputData.length) (line 152).  Both
sides of the comparison are nonnegative, so it is equivalent to the
comparison of squares, sum > SPEECH_THRESHOLD ^ 2 * length, which stays
inside the rationals.  For an empty frame the source computes
Math.sqrt(0 / 0) = NaN and NaN > 0.05 is false; this definition also
returns false there. -/
def isSpeechFrame (frame : List ℚ) : Bool :=
  decide (SPEECH_THRESHOLD ^ 2 * (frame.length : ℚ) < sumSquares frame)

/-- handleSpeechDetected of src/App.tsx lines 174 to 197, running at
wall-clock time t: ignored while paused (the guard on line 175 comes
before everything else); otherwise it records the speech time, moves
CRYING or SLEEPING to LISTENING and leaves every other mood unchanged,
clears any existing silence timeout and arms a new one to fire at
t + SILENCE_TOLERANCE_MS. -/
def handleSpeechDetected (t : Nat) (s : SysState) : SysState :=
  if s.isPaused then s
  else
    { s with
      lastSpeechTime := t
      babyState :=
        if s.babyState = .CRYING ∨ s.babyState = .SLEEPING then .LISTENING
        else s.babyState
      silenceDeadline := some (t + SILENCE_TOLERANCE_MS) }

/-- togglePause of src/App.tsx lines 199 to 228, running at wall-clock
time t.  When not paused (pausing): clears the silence timeout, sets the
mood to PAUSED, stops every in-flight audio source and clears the set,
and resets the playback cursor nextStartTimeRef to 0.  When paused
(resuming): sets the mood to LISTENING, records the time, and re-arms
the silence timeout to fire at t + SILENCE_TOLERANCE_MS. -/
def togglePause (t : Nat) (s : SysState) : SysState :=
  if s.isPaused then
    { s with
      isPaused := false
      babyState := .LISTENING
      lastSpeechTime := t
      silenceDeadline := some (t + SILENCE_TOLERANCE_MS) }
  else
    { s with
      isPaused := true
      babyState := .PAUSED
      silenceDeadline := none
      inFlight := []
      nextStartTime := 0 }

/-- Playback scheduling of one decoded chunk, src/App.tsx lines 104 to
110: given the cursor nextStartTimeRef, the output clock now
(outputContext.currentTime) and the chunk duration, returns the start
time passed to source.start and the updated cursor.  The cursor is first
pulled up to now when it lags behind (idle queue), the chunk starts at
the cursor, and the cursor advances by the chunk duration. -/
def scheduleChunk (cursor now dur : ℚ) : ℚ × ℚ :=
  let start := if cursor < now then now else cursor
  (start, start + dur)

/-- Outcome of one inbound live-channel message for the playback path of
onmessage, src/App.tsx lines 89 to 119: the message carries no inline
audio data, or its audio fails to decode (decodeAudioData throws, caught
on line 115), or it decodes to a buffer of the given duration in
seconds. -/
inductive Payload
  | noAudio
  | undecodable
  | audio (dur : ℚ)
deriving DecidableEq, Repr

/-- The timestamped callbacks that can run against one App instance.
Each carries its wall-clock time in milliseconds; message also carries
the output-clock reading used for scheduling.
  - sessionOpened: the onopen callback, src/App.tsx lines 76 to 88.
  - audioFrame: the onaudioprocess callback, lines 135 to 159, carrying
    the captured frame.
  - timerFired: the callback of the silence setTimeout, lines 85 to 87,
    193 to 195 and 224 to 226 (all three arm the same callback).
  - pauseRequested and resumeRequested: the single pause/resume control
    of BabyMonitor invoking togglePause, lines 199 to 228; the control
    issues a pause request when the component is not paused and a resume
    request when it is paused.
  - sessionClosed: the onclose callback, lines 120 to 123.
  - message: the onmessage callback, lines 89 to 119.
  - sourceEnded: the onended callback of a playback source, line 114.
  - startFailed: the catch block of startSession, lines 167 to 170. -/
inductive Event
  | sessionOpened (t : Nat)
  | audioFrame (t : Nat) (frame : List ℚ)
  | timerFired (t : Nat)
  | pauseRequested (t : Nat)
  | resumeRequested (t : Nat)
  | sessionClosed (t : Nat)
  | message (t : Nat) (now : ℚ) (p : Payload)
  | sourceEnded (t : Nat) (id : Nat)
  | startFailed (t : Nat)
deriving DecidableEq, Repr

/-- One callback dispatch.  Notes on the embedding of the source:
  - timerFired t acts only when silenceDeadline = some t, that is when
    the timeout armed to fire at t is still the live one; a timeout
    cleared by clearTimeout before its deadline never runs its callback,
    and a spent timeout does not run again, which the update to none
    records.  The callback body itself (setBabyState CRYING) contains no
    further checks, exactly as in the source.
  - pauseRequested and resumeRequested both dispatch to togglePause,
    the only handler in the source.  The single control of BabyMonitor
    (lines 187 to 197 of that file) shows Pause while isPaused is false
    and Resume while it is true, so a pause request can only reach
    togglePause from a non-paused state and a resume request only from a
    paused state; a mismatched request corresponds to no handler running
    at all and leaves the state unchanged.
  - sessionClosed only records the disconnection (setIsConnected false);
    the source onclose does not touch the mood.
  - message returns immediately while paused (line 91), before any
    decoding; otherwise a decode failure only logs (decodeErrors), and a
    decoded buffer is scheduled through scheduleChunk, logged, and its
    source added to the in-flight set with the next sequence number.
  - sourceEnded removes the finished source from the in-flight set; the
    onended callback has no paused guard in the source.
  - startFailed sets the ERROR mode, nothing else. -/
def step (e : Event) (s : SysState) : SysState :=
  match e with
  | .sessionOpened t =>
      { s with
        isConnected := true
        mode := .ACTIVE
        babyState := .LISTENING
        lastSpeechTime := t
        silenceDeadline := some (t + SILENCE_TOLERANCE_MS) }
  | .audioFrame t frame =>
      if s.isPaused then s
      else if isSpeechFrame frame then handleSpeechDetected t s else s
  | .timerFired t =>
      if s.silenceDeadline = some t then
        { s with babyState := .CRYING, silenceDeadline := none }
      else s
  | .pauseRequested t => if s.isPaused then s else togglePause t s
  | .resumeRequested t => if s.isPaused then togglePause t s else s
  | .sessionClosed _ => { s with isConnected := false }
  | .message _ now p =>
      if s.isPaused then s
      else
        match p with
        | .noAudio => s
        | .undecodable => { s with decodeErrors := s.decodeErrors + 1 }
        | .audio dur =>
            let sc := scheduleChunk s.nextStartTime now dur
            { s with
              nextStartTime := sc.2
              schedLog := s.schedLog ++ [sc.1]
              inFlight := s.inFlight ++ [s.seq]
              seq := s.seq + 1 }
  | .sourceEnded _ id => { s with inFlight := s.inFlight.erase id }
  | .startFailed _ => { s with mode := .ERROR }

/-- Folding a callback timeline over a state. -/
def run (s : SysState) (es : List Event) : SysState :=
  es.foldl (fun s e => step e s) s

/-- The states an App instance can actually be in.  Guards record where
each callback can fire in the source: the start button that triggers
startSession (and hence a later onopen) is rendered only in SETUP mode
(src/App.tsx line 270), and one session fires onopen once; the
pause/resume control exists only once BabyMonitor is rendered, that is
outside SETUP mode (line 314).  All other callbacks can fire at any
time. -/
inductive Reach : SysState → Prop
  | start (t0 : Nat) : Reach (initState t0)
  | sessionOpened (s : SysState) (t : Nat) :
      Reach s → s.mode = .SETUP → Reach (step (.sessionOpened t) s)
  | audioFrame (s : SysState) (t : Nat) (frame : List ℚ) :
      Reach s → Reach (step (.audioFrame t frame) s)
  | timerFired (s : SysState) (t : Nat) :
      Reach s → Reach (step (.timerFired t) s)
  | pauseRequested (s : SysState) (t : Nat) :
      Reach s → s.mode ≠ .SETUP → Reach (step (.pauseRequested t) s)
  | resumeRequested (s : SysState) (t : Nat) :
      Reach s → s.mode ≠ .SETUP → Reach (step (.resumeRequested t) s)
  | sessionClosed (s : SysState) (t : Nat) :
      Reach s → Reach (step (.sessionClosed t) s)
  | message (s : SysState) (t : Nat) (now : ℚ) (p : Payload) :
      Reach s → Reach (step (.message t now p) s)
  | sourceEnded (s : SysState) (t : Nat) (id : Nat) :
      Reach s → Reach (step (.sourceEnded t id) s)
  | startFailed (s : SysState) (t : Nat) :
      Reach s → Reach (step (.startFailed t) s)

/-- The inductive invariant of the pause override: the mood is PAUSED
exactly when the paused flag is set; while paused no silence timeout is
live, the in-flight set is empty and the playback cursor sits at its
idle baseline 0; and in SETUP mode the component is not paused. -/
def Inv (s : SysState) : Prop :=
  (s.isPaused = true ↔ s.babyState = .PAUSED)
  ∧ (s.isPaused = true →
      s.silenceDeadline = none ∧ s.inFlight = [] ∧ s.nextStartTime = 0)
  ∧ (s.mode = .SETUP → s.isPaused = false)

/-- A state with the paused flag down and a mood other than PAUSED
satisfies the invariant outright. -/
lemma inv_of_unpaused (s : SysState) (hp : s.isPaused = false)
    (hb : s.babyState ≠ .PAUSED) : Inv s := by
  refine ⟨?_, ?_, ?_⟩ <;> simp [hp, hb]

/-- A paused state with mood PAUSED, no live timeout, an empty in-flight
set, the cursor at the idle baseline and the monitor rendered satisfies
the invariant. -/
lemma inv_of_paused (s : SysState) (hp : s.isPaused = true)
    (hb : s.babyState = .PAUSED) (h1 : s.silenceDeadline = none)
    (h2 : s.inFlight = []) (h3 : s.nextStartTime = 0)
    (hm : s.mode ≠ .SETUP) : Inv s := by
  refine ⟨?_, ?_, ?_⟩ <;> simp [hp, hb, h1, h2, h3, hm]

theorem reach_inv {s : SysState} (h : Reach s) : Inv s := by
  induction h with
  | start t0 =>
      exact inv_of_unpaused _ rfl (by simp [initState])
  | sessionOpened s t hr hm ih =>
      exact inv_of_unpaused _ (by simp [step, ih.2.2 hm]) (by simp [step])
  | audioFrame s t frame hr ih =>
      obtain ⟨i1, i2, i3⟩ := ih
      by_cases hp : s.isPaused = true
      · have hs : step (.audioFrame t frame) s = s := by simp [step, hp]
        rw [hs]; exact ⟨i1, i2, i3⟩
      · have hp2 : s.isPaused = false := by simpa using hp
        have hbP : s.babyState ≠ .PAUSED := fun hP => by
          simp [i1.mpr hP] at hp2
        by_cases hf : isSpeechFrame frame = true
        · have hs : step (.audioFrame t frame) s = handleSpeechDetected t s := by
            simp [step, hp2, hf]
          rw [hs]
          have hmood : (handleSpeechDetected t s).babyState =
              if s.babyState = .CRYING ∨ s.babyState = .SLEEPING then .LISTENING
              else s.babyState := by
            simp [handleSpeechDetected, hp2]
          refine inv_of_unpaused _ (by simp [handleSpeechDetected, hp2]) ?_
          rw [hmood]
          split
          · simp
          · exact hbP
        · have hs : step (.audioFrame t frame) s = s := by simp [step, hp2, hf]
          rw [hs]; exact ⟨i1, i2, i3⟩
  | timerFired s t hr ih =>
      obtain ⟨i1, i2, i3⟩ := ih
      by_cases hd : s.silenceDeadline = some t
      · have hp2 : s.isPaused = false := by
          cases hB : s.isPaused
          · rfl
          · exact absurd hd (by simp [(i2 hB).1])
        have hs : step (.timerFired t) s =
            { s with babyState := .CRYING, silenceDeadline := none } := by
          simp [step, hd]
        rw [hs]
        exact inv_of_unpaused _ (by simpa using hp2) (by simp)
      · have hs : step (.timerFired t) s = s := by simp [step, hd]
        rw [hs]; exact ⟨i1, i2, i3⟩
  | pauseRequested s t hr hm ih =>
      obtain ⟨i1, i2, i3⟩ := ih
      by_cases hp : s.isPaused = true
      · have hs : step (.pauseRequested t) s = s := by simp [step, hp]
        rw [hs]; exact ⟨i1, i2, i3⟩
      · have hp2 : s.isPaused = false := by simpa using hp
        have hs : step (.pauseRequested t) s =
            { s with isPaused := true, babyState := .PAUSED,
                     silenceDeadline := none, inFlight := [],
                     nextStartTime := 0 } := by
          simp [step, togglePause, hp2]
        rw [hs]
        exact inv_of_paused _ rfl rfl rfl rfl rfl (by simpa using hm)
  | resumeRequested s t hr hm ih =>
      obtain ⟨i1, i2, i3⟩ := ih
      by_cases hp : s.isPaused = true
      · have hs : step (.resumeRequested t) s =
            { s with isPaused := false, babyState := .LISTENING,
                     lastSpeechTime := t,
                     silenceDeadline := some (t + SILENCE_TOLERANCE_MS) } := by
          simp [step, togglePause, hp]
        rw [hs]
        exact inv_of_unpaused _ rfl (by simp)
      · have hs : step (.resumeRequested t) s = s := by simp [step, hp]
        rw [hs]; exact ⟨i1, i2, i3⟩
  | sessionClosed s t hr ih =>
      exact ⟨ih.1, ih.2.1, ih.2.2⟩
  | message s t now p hr ih =>
      obtain ⟨i1, i2, i3⟩ := ih
      by_cases hp : s.isPaused = true
      · have hs : step (.message t now p) s = s := by simp [step, hp]
        rw [hs]; exact ⟨i1, i2, i3⟩
      · have hp2 : s.isPaused = false := by simpa using hp
        have hbP : s.babyState ≠ .PAUSED := fun hP => by
          simp [i1.mpr hP] at hp2
        cases p with
        | noAudio =>
            have hs : step (.message t now .noAudio) s = s := by simp [step, hp2]
            rw [hs]; exact ⟨i1, i2, i3⟩
        | undecodable =>
            have hs : step (.message t now .undecodable) s =
                { s with decodeErrors := s.decodeErrors + 1 } := by
              simp [step, hp2]
            rw [hs]
            exact inv_of_unpaused _ (by simpa using hp2) hbP
        | audio dur =>
            refine inv_of_unpaused _ ?_ ?_ <;> simp [step, hp2, hbP]
  | sourceEnded s t id hr ih =>
      obtain ⟨i1, i2, i3⟩ := ih
      by_cases hp : s.isPaused = true
      · refine inv_of_paused _ (by simpa [step] using hp)
          (by simpa [step] using i1.mp hp) (by simpa [step] using (i2 hp).1)
          ?_ (by simpa [step] using (i2 hp).2.2) ?_
        · simp [step, (i2 hp).2.1]
        · intro hm
          exact absurd (i3 (by simpa [step] using hm)) (by simp [hp])
      · have hp2 : s.isPaused = false := by simpa using hp
        have hbP : s.babyState ≠ .PAUSED := fun hP => by
          simp [i1.mpr hP] at hp2
        exact inv_of_unpaused _ (by simpa [step] using hp2)
          (by simpa [step] using hbP)
  | startFailed s t hr ih =>
      obtain ⟨i1, i2, i3⟩ := ih
      by_cases hp : s.isPaused = true
      · refine inv_of_paused _ (by simpa [step] using hp)
          (by simpa [step] using i1.mp hp) (by simpa [step] using (i2 hp).1)
          (by simpa [step] using (i2 hp).2.1) (by simpa [step] using (i2 hp).2.2)
          (by simp [step])
      · have hp2 : s.isPaused = false := by simpa using hp
        have hbP : s.babyState ≠ .PAUSED := fun hP => by
          simp [i1.mpr hP] at hp2
        exact inv_of_unpaused _ (by simpa [step] using hp2)
          (by simpa [step] using hbP)

/-- Wall-clock timestamp of an event. -/
def eventTime : Event → Nat
  | .sessionOpened t => t
  | .audioFrame t _ => t
  | .timerFired t => t
  | .pauseRequested t => t
  | .resumeRequested t => t
  | .sessionClosed t => t
  | .message t _ _ => t
  | .sourceEnded t _ => t
  | .startFailed t => t

/-- An event that the VAD classifies as speech: a captured frame whose
RMS exceeds SPEECH_THRESHOLD. -/
def isSpeechEvt : Event → Bool
  | .audioFrame _ frame => isSpeechFrame frame
  | _ => false

/-- A silence-timeout fire. -/
def isTimerEvt : Event → Bool
  | .timerFired _ => true
  | _ => false

/-- An event of an undisturbed silent stretch: a captured frame whose
RMS stays at or below SPEECH_THRESHOLD, an inbound channel message, or a
playback-source completion.  No speech, no timer fire, no control
action. -/
def silentEvt : Event → Bool
  | .audioFrame _ frame => !isSpeechFrame frame
  | .message _ _ _ => true
  | .sourceEnded _ _ => true
  | _ => false

/-- An event of the audio-driven timeline: a captured frame or a
silence-timeout fire. -/
def vadEvt : Event → Bool
  | .audioFrame _ _ => true
  | .timerFired _ => true
  | _ => false

/-- Timestamps of the events are nondecreasing and start no earlier
than the given bound: the delivery order of the single-threaded callback
timeline. -/
def timesMono : Nat → List Event → Bool
  | _, [] => true
  | b, e :: es => decide (b ≤ eventTime e) && timesMono (eventTime e) es

/-- Every speech event arrives strictly less than SILENCE_TOLERANCE_MS
after the previous speech event, anchored at the last speech time
already recorded in the state. -/
def speechCadence : Nat → List Event → Bool
  | _, [] => true
  | a, e :: es =>
      if isSpeechEvt e then
        decide (eventTime e < a + SILENCE_TOLERANCE_MS) && speechCadence (eventTime e) es
      else speechCadence a es

/-- Every timer fire in the list is followed by a later speech event:
the finite window under observation ends while the caregiver is still
reading, so no fire of the trace lies beyond the final speech. -/
def firesCovered : List Event → Bool
  | [] => true
  | e :: es => (!isTimerEvt e || es.any isSpeechEvt) && firesCovered es

/-- The mood differs from CRYING in the given state and after every
event of the list. -/
def neverCrying : SysState → List Event → Bool
  | s, [] => decide (s.babyState ≠ .CRYING)
  | s, e :: es => decide (s.babyState ≠ .CRYING) && neverCrying (step e s) es

/-- One silent-stretch event leaves a non-paused state entirely
unchanged except possibly for the playback fields; in particular the
paused flag and the live timeout survive. -/
lemma silent_step (e : Event) (s : SysState) (he : silentEvt e = true)
    (hp : s.isPaused = false) :
    (step e s).silenceDeadline = s.silenceDeadline ∧
    (step e s).isPaused = s.isPaused ∧
    (step e s).babyState = s.babyState := by
  cases e with
  | audioFrame t frame =>
      have hf : isSpeechFrame frame = false := by
        simpa [silentEvt] using he
      simp [step, hp, hf]
  | message t now p =>
      cases p <;> simp [step, hp]
  | sourceEnded t id => simp [step]
  | sessionOpened t => simp [silentEvt] at he
  | timerFired t => simp [silentEvt] at he
  | pauseRequested t => simp [silentEvt] at he
  | resumeRequested t => simp [silentEvt] at he
  | sessionClosed t => simp [silentEvt] at he
  | startFailed t => simp [silentEvt] at he

/-- A run of silent-stretch events keeps the paused flag down, the live
timeout and the mood of a non-paused state. -/
lemma silent_run (es : List Event) : ∀ s : SysState,
    es.all silentEvt = true → s.isPaused = false →
    (run s es).silenceDeadline = s.silenceDeadline ∧
    (run s es).isPaused = s.isPaused ∧
    (run s es).babyState = s.babyState := by
  induction es with
  | nil => intro s _ _; exact ⟨rfl, rfl, rfl⟩
  | cons e es ih =>
      intro s hall hp
      rw [List.all_cons, Bool.and_eq_true] at hall
      have he : silentEvt e = true := hall.1
      have hrest : es.all silentEvt = true := hall.2
      obtain ⟨h1, h2, h3⟩ := silent_step e s he hp
      have hrun : run s (e :: es) = run (step e s) es := rfl
      rw [hrun]
      obtain ⟨g1, g2, g3⟩ := ih (step e s) hrest (by rw [h2]; exact hp)
      exact ⟨by rw [g1, h1], by rw [g2, h2], by rw [g3, h3]⟩

/-- If some event of the list is a speech event, the cadence and time
bounds force the lower time bound below the silence deadline of the
anchor. -/
lemma anySpeech_bound (es : List Event) : ∀ a b : Nat,
    es.any isSpeechEvt = true → speechCadence a es = true →
    timesMono b es = true → b < a + SILENCE_TOLERANCE_MS := by
  induction es with
  | nil => intro a b h _ _; simp at h
  | cons e es ih =>
      intro a b hany hcad hmono
      have hb : b ≤ eventTime e ∧ timesMono (eventTime e) es = true := by
        simpa [timesMono, Bool.and_eq_true] using hmono
      by_cases hsp : isSpeechEvt e = true
      · have : eventTime e < a + SILENCE_TOLERANCE_MS := by
          simp [speechCadence, hsp, Bool.and_eq_true] at hcad
          exact hcad.1
        omega
      · have hany2 : es.any isSpeechEvt = true := by
          simpa [List.any_cons, hsp] using hany
        have hcad2 : speechCadence a es = true := by
          simpa [speechCadence, hsp] using hcad
        have := ih a (eventTime e) hany2 hcad2 hb.2
        omega

/-- Core cadence argument: from a non-paused, non-crying state whose
silence timeout is armed SILENCE_TOLERANCE_MS after the anchor, an
audio-driven, time-ordered event list whose speech events keep the
cadence and whose timer fires are all followed by further speech never
shows the CRYING mood. -/
lemma cadence_neverCrying (es : List Event) : ∀ (s : SysState) (a b : Nat),
    s.isPaused = false → s.babyState ≠ .CRYING →
    s.silenceDeadline = some (a + SILENCE_TOLERANCE_MS) →
    es.all vadEvt = true → timesMono b es = true →
    speechCadence a es = true → firesCovered es = true →
    neverCrying s es = true := by
  induction es with
  | nil =>
      intro s a b _ hc _ _ _ _ _
      simpa [neverCrying] using hc
  | cons e es ih =>
      intro s a b hp hc hd hall hmono hcad hcov
      have hall2 : vadEvt e = true ∧ es.all vadEvt = true := by
        simpa [List.all_cons, Bool.and_eq_true] using hall
      have hmono2 : b ≤ eventTime e ∧ timesMono (eventTime e) es = true := by
        simpa [timesMono, Bool.and_eq_true] using hmono
      have hcov2 : ((!isTimerEvt e) = true ∨ es.any isSpeechEvt = true)
          ∧ firesCovered es = true := by
        rw [show firesCovered (e :: es)
              = ((!isTimerEvt e || es.any isSpeechEvt) && firesCovered es) from rfl,
            Bool.and_eq_true, Bool.or_eq_true] at hcov
        exact hcov
      rw [show neverCrying s (e :: es)
            = (decide (s.babyState ≠ .CRYING) && neverCrying (step e s) es) from rfl]
      rw [Bool.and_eq_true]
      refine ⟨by simpa using hc, ?_⟩
      cases e with
      | audioFrame t frame =>
          by_cases hf : isSpeechFrame frame = true
          · have hs : step (.audioFrame t frame) s = handleSpeechDetected t s := by
              simp [step, hp, hf]
            have hcad2 : t < a + SILENCE_TOLERANCE_MS ∧ speechCadence t es = true := by
              simpa [speechCadence, isSpeechEvt, hf, eventTime,
                     Bool.and_eq_true] using hcad
            rw [hs]
            refine ih (handleSpeechDetected t s) t t
              (by simp [handleSpeechDetected, hp]) ?_
              (by simp [handleSpeechDetected, hp]) hall2.2 hmono2.2 hcad2.2 hcov2.2
            have hmood : (handleSpeechDetected t s).babyState =
                if s.babyState = .CRYING ∨ s.babyState = .SLEEPING then .LISTENING
                else s.babyState := by
              simp [handleSpeechDetected, hp]
            rw [hmood]
            split
            · simp
            · exact hc
          · have hs : step (.audioFrame t frame) s = s := by simp [step, hp, hf]
            have hcad2 : speechCadence a es = true := by
              simpa [speechCadence, isSpeechEvt, hf] using hcad
            rw [hs]
            exact ih s a (eventTime (.audioFrame t frame)) hp hc hd hall2.2
              hmono2.2 hcad2 hcov2.2
      | timerFired u =>
          by_cases hu : u = a + SILENCE_TOLERANCE_MS
          · exfalso
            have hany : es.any isSpeechEvt = true :=
              hcov2.1.resolve_left (by simp [isTimerEvt])
            have hcad2 : speechCadence a es = true := by
              simpa [speechCadence, isSpeechEvt] using hcad
            have := anySpeech_bound es a (eventTime (.timerFired u)) hany hcad2 hmono2.2
            simp [eventTime, hu] at this
          · have hs : step (.timerFired u) s = s := by
              simp [step, hd, Ne.symm hu]
            have hcad2 : speechCadence a es = true := by
              simpa [speechCadence, isSpeechEvt] using hcad
            rw [hs]
            exact ih s a (eventTime (.timerFired u)) hp hc hd hall2.2
              hmono2.2 hcad2 hcov2.2
      | sessionOpened t => simp [vadEvt] at hall2
      | pauseRequested t => simp [vadEvt] at hall2
      | resumeRequested t => simp [vadEvt] at hall2
      | sessionClosed t => simp [vadEvt] at hall2
      | message t now p => simp [vadEvt] at hall2
      | sourceEnded t id => simp [vadEvt] at hall2
      | startFailed t => simp [vadEvt] at hall2

/-- A session that opened at wall-clock time 1000: mood LISTENING, the
silence timeout armed for 3000. -/
def openedDemo : SysState := step (.sessionOpened 1000) (initState 0)

/-- The same session after the pause control was pressed at 1500. -/
def pausedDemo : SysState := step (.pauseRequested 1500) openedDemo

lemma reach_openedDemo : Reach openedDemo :=
  Reach.sessionOpened (initState 0) 1000 (Reach.start 0) rfl

lemma reach_pausedDemo : Reach pausedDemo :=
  Reach.pauseRequested openedDemo 1500 reach_openedDemo (by decide)

/-- C2: in every reachable state the mood is PAUSED exactly when the
session is in the paused sub-state, and while paused both a captured
audio frame (hence any SpeechDetected it would raise; the guards on
lines 137 and 175 of src/App.tsx run before any other logic) and a
silence-timeout fire (impossible while paused because pausing clears the
timeout, line 206) leave the state, and so the mood, unchanged. -/
theorem paused_override (s : SysState) (h : Reach s) :
    (s.isPaused = true ↔ s.babyState = .PAUSED)
    ∧ (s.isPaused = true → ∀ (t : Nat) (frame : List ℚ),
        step (.audioFrame t frame) s = s ∧ step (.timerFired t) s = s) := by
  obtain ⟨i1, i2, i3⟩ := reach_inv h
  exact ⟨i1, fun hp t frame =>
    ⟨by simp [step, hp], by simp [step, (i2 hp).1]⟩⟩

theorem paused_override_witness :
    (pausedDemo.isPaused = true ↔ pausedDemo.babyState = .PAUSED)
    ∧ (step (.audioFrame 1700 [1]) pausedDemo = pausedDemo
        ∧ step (.timerFired 1700) pausedDemo = pausedDemo) :=
  ⟨(paused_override pausedDemo reach_pausedDemo).1,
   (paused_override pausedDemo reach_pausedDemo).2 (by decide) 1700 [1]⟩

/-- C3: from any non-paused state, a detected speech event moves CRYING
or SLEEPING to LISTENING, leaves LISTENING and HAPPY unchanged, and in
every case replaces the silence timeout by one armed for
t + SILENCE_TOLERANCE_MS (src/App.tsx lines 174 to 197). -/
theorem speechDetected_transition (s : SysState) (t : Nat)
    (hp : s.isPaused = false) :
    ((s.babyState = .CRYING ∨ s.babyState = .SLEEPING) →
      (handleSpeechDetected t s).babyState = .LISTENING)
    ∧ ((s.babyState = .LISTENING ∨ s.babyState = .HAPPY) →
      (handleSpeechDetected t s).babyState = s.babyState)
    ∧ (handleSpeechDetected t s).silenceDeadline
        = some (t + SILENCE_TOLERANCE_MS) := by
  have hmood : (handleSpeechDetected t s).babyState =
      if s.babyState = .CRYING ∨ s.babyState = .SLEEPING then .LISTENING
      else s.babyState := by simp [handleSpeechDetected, hp]
  refine ⟨?_, ?_, by simp [handleSpeechDetected, hp]⟩
  · intro h; rw [hmood, if_pos h]
  · intro h
    have hn : ¬(s.babyState = .CRYING ∨ s.babyState = .SLEEPING) := by
      rcases h with h | h <;> simp [h]
    rw [hmood, if_neg hn]

theorem speechDetected_transition_witness :
    (handleSpeechDetected 4 (initState 0)).babyState = .LISTENING
    ∧ (handleSpeechDetected 4 (initState 0)).silenceDeadline
        = some (4 + SILENCE_TOLERANCE_MS) :=
  ⟨(speechDetected_transition (initState 0) 4 rfl).1 (Or.inr rfl),
   (speechDetected_transition (initState 0) 4 rfl).2.2⟩

/-- C4: a pause request from any reachable state yields mood PAUSED, no
live silence timeout, an empty in-flight set (all playing sources
stopped and the queue cleared) and the playback cursor back at its idle
baseline 0, regardless of pending timeouts or in-flight chunks
(src/App.tsx lines 199 to 216; a request arriving in an already-paused
state leaves it paused with those properties already holding). -/
theorem pauseRequested_transition (s : SysState) (t : Nat) (h : Reach s) :
    (step (.pauseRequested t) s).babyState = .PAUSED
    ∧ (step (.pauseRequested t) s).silenceDeadline = none
    ∧ (step (.pauseRequested t) s).inFlight = []
    ∧ (step (.pauseRequested t) s).nextStartTime = 0 := by
  obtain ⟨i1, i2, i3⟩ := reach_inv h
  by_cases hp : s.isPaused = true
  · have hs : step (.pauseRequested t) s = s := by simp [step, hp]
    rw [hs]
    exact ⟨i1.mp hp, (i2 hp).1, (i2 hp).2.1, (i2 hp).2.2⟩
  · have hp2 : s.isPaused = false := by simpa using hp
    simp [step, togglePause, hp2]

theorem pauseRequested_transition_witness :
    (step (.pauseRequested 1500) openedDemo).babyState = .PAUSED
    ∧ (step (.pauseRequested 1500) openedDemo).silenceDeadline = none
    ∧ (step (.pauseRequested 1500) openedDemo).inFlight = []
    ∧ (step (.pauseRequested 1500) openedDemo).nextStartTime = 0 :=
  pauseRequested_transition openedDemo 1500 reach_openedDemo

/-- C5 (amended): the onclose callback of src/App.tsx lines 120 to 123
only records the disconnection; it leaves the mood, and every other
field, unchanged.  The mood is not reset to SLEEPING; only a freshly
mounted component starts at SLEEPING. -/
theorem sessionClosed_keeps_mood (s : SysState) (t : Nat) :
    step (.sessionClosed t) s = { s with isConnected := false } := rfl

/-- A session that opened at 0 and cried at 2000 after two seconds of
silence. -/
def cryingDemo : SysState :=
  run (initState 0) [.sessionOpened 0, .timerFired SILENCE_TOLERANCE_MS]

lemma reach_cryingDemo : Reach cryingDemo :=
  Reach.timerFired _ SILENCE_TOLERANCE_MS
    (Reach.sessionOpened (initState 0) 0 (Reach.start 0) rfl)

/-- C5 counterexample: a session closed while the baby is crying keeps
the CRYING mood; the claimed transition to SLEEPING does not happen. -/
theorem sessionClosed_not_sleeping_cex :
    (step (.sessionClosed 2500) cryingDemo).babyState = .CRYING
    ∧ ¬(step (.sessionClosed 2500) cryingDemo).babyState = .SLEEPING := by
  constructor <;> decide

/-- C7: a resume request while paused yields LISTENING with a fresh
silence timeout armed for t + SILENCE_TOLERANCE_MS, so a timeout fire
earlier than t + SILENCE_TOLERANCE_MS is a stale no-op and CRYING can
first occur exactly at t + SILENCE_TOLERANCE_MS; a resume request while
not paused reaches no handler and changes nothing (src/App.tsx lines
217 to 227 with the control of BabyMonitor). -/
theorem resumeRequested_transition (s : SysState) (t : Nat) :
    (s.isPaused = true →
      (step (.resumeRequested t) s).babyState = .LISTENING
      ∧ (step (.resumeRequested t) s).isPaused = false
      ∧ (step (.resumeRequested t) s).silenceDeadline
          = some (t + SILENCE_TOLERANCE_MS)
      ∧ (∀ u : Nat, u < t + SILENCE_TOLERANCE_MS →
          (step (.timerFired u) (step (.resumeRequested t) s)).babyState
            = .LISTENING)
      ∧ (step (.timerFired (t + SILENCE_TOLERANCE_MS))
            (step (.resumeRequested t) s)).babyState = .CRYING)
    ∧ (s.isPaused = false → step (.resumeRequested t) s = s) := by
  constructor
  · intro hp
    have hs : step (.resumeRequested t) s =
        { s with isPaused := false, babyState := .LISTENING,
                 lastSpeechTime := t,
                 silenceDeadline := some (t + SILENCE_TOLERANCE_MS) } := by
      simp [step, togglePause, hp]
    rw [hs]
    refine ⟨rfl, rfl, rfl, ?_, by simp [step]⟩
    intro u hu
    have hne : ¬((some (t + SILENCE_TOLERANCE_MS) : Option Nat) = some u) := by
      simp; omega
    simp [step, hne]
  · intro hp; simp [step, hp]

theorem resumeRequested_transition_witness :
    ((step (.resumeRequested 2000) pausedDemo).babyState = .LISTENING
      ∧ (step (.timerFired 2500)
            (step (.resumeRequested 2000) pausedDemo)).babyState = .LISTENING
      ∧ (step (.timerFired (2000 + SILENCE_TOLERANCE_MS))
            (step (.resumeRequested 2000) pausedDemo)).babyState = .CRYING)
    ∧ step (.resumeRequested 7) (initState 0) = initState 0 :=
  ⟨⟨((resumeRequested_transition pausedDemo 2000).1 (by decide)).1,
    ((resumeRequested_transition pausedDemo 2000).1 (by decide)).2.2.2.1
      2500 (by decide),
    ((resumeRequested_transition pausedDemo 2000).1 (by decide)).2.2.2.2⟩,
   (resumeRequested_transition (initState 0) 7).2 rfl⟩

/-- C8: an undecodable inbound chunk in a non-paused session only
increments the decode-error count (the catch block of src/App.tsx lines
115 to 117): the scheduling cursor, the in-flight set, the mode and the
connection flag survive, and a subsequent good chunk is scheduled
exactly as it would have been had the bad chunk never arrived. -/
theorem decode_error_contained (s : SysState) (t1 t2 : Nat)
    (now1 now2 d : ℚ) (hp : s.isPaused = false) :
    step (.message t1 now1 .undecodable) s
        = { s with decodeErrors := s.decodeErrors + 1 }
    ∧ (step (.message t1 now1 .undecodable) s).nextStartTime = s.nextStartTime
    ∧ (step (.message t1 now1 .undecodable) s).inFlight = s.inFlight
    ∧ (step (.message t1 now1 .undecodable) s).mode = s.mode
    ∧ (step (.message t1 now1 .undecodable) s).isConnected = s.isConnected
    ∧ (step (.message t2 now2 (.audio d))
          (step (.message t1 now1 .undecodable) s)).schedLog
        = (step (.message t2 now2 (.audio d)) s).schedLog
    ∧ (step (.message t2 now2 (.audio d))
          (step (.message t1 now1 .undecodable) s)).nextStartTime
        = (step (.message t2 now2 (.audio d)) s).nextStartTime := by
  have hb : step (.message t1 now1 .undecodable) s
      = { s with decodeErrors := s.decodeErrors + 1 } := by simp [step, hp]
  refine ⟨hb, by rw [hb], by rw [hb], by rw [hb], by rw [hb], ?_, ?_⟩
  · rw [hb]; simp [step, hp]
  · rw [hb]; simp [step, hp]

theorem decode_error_contained_witness :
    step (.message 1100 2 .undecodable) openedDemo
        = { openedDemo with decodeErrors := openedDemo.decodeErrors + 1 }
    ∧ (step (.message 1200 3 (.audio (1/2)))
          (step (.message 1100 2 .undecodable) openedDemo)).schedLog
        = (step (.message 1200 3 (.audio (1/2))) openedDemo).schedLog :=
  ⟨(decode_error_contained openedDemo 1100 1200 2 3 (1/2) rfl).1,
   (decode_error_contained openedDemo 1100 1200 2 3 (1/2) rfl).2.2.2.2.2.1⟩

/-- C10: while paused, an inbound channel message of any kind is dropped
by the guard on line 91 of src/App.tsx before any decoding: the state is
exactly unchanged (cursor, in-flight set, error count and all), and
since nothing of the message is retained, every continuation of the
session, including one through a later resume, is the same as if the
message had never arrived. -/
theorem paused_inbound_dropped (s : SysState) (t : Nat) (now : ℚ)
    (p : Payload) (hp : s.isPaused = true) :
    step (.message t now p) s = s
    ∧ ∀ es : List Event, run (step (.message t now p) s) es = run s es := by
  have hb : step (.message t now p) s = s := by simp [step, hp]
  exact ⟨hb, fun es => by rw [hb]⟩

theorem paused_inbound_dropped_witness :
    step (.message 1600 2 (.audio (1/2))) pausedDemo = pausedDemo :=
  (paused_inbound_dropped pausedDemo 1600 2 (.audio (1/2)) (by decide)).1

/-- C1: the temporal contract of the silence timeout, in two parts.
First, in a non-paused session whose timeout is armed for time d (as it
is on entering LISTENING), a stretch of events none of which carries a
frame with RMS above SPEECH_THRESHOLD (and none of which is a control
action) leaves the timeout live, so when its deadline passes, that is
when the fire at d is delivered, the mood becomes CRYING.  Second, along
any time-ordered audio-driven event list whose speech events each arrive
less than SILENCE_TOLERANCE_MS after the previous one (anchored at the
arming of the current timeout) and whose timeout fires all happen while
further speech is still to come, the mood is never CRYING: every fire is
stale because the cadence re-armed the timeout before its deadline was
reached. -/
theorem silence_cries_and_cadence_never_cries :
    (∀ (s : SysState) (d : Nat) (es : List Event),
      s.isPaused = false → s.silenceDeadline = some d →
      es.all silentEvt = true →
      (run s es).silenceDeadline = some d
      ∧ (step (.timerFired d) (run s es)).babyState = .CRYING)
    ∧ (∀ (s : SysState) (a b : Nat) (es : List Event),
      s.isPaused = false → s.babyState ≠ .CRYING →
      s.silenceDeadline = some (a + SILENCE_TOLERANCE_MS) →
      es.all vadEvt = true → timesMono b es = true →
      speechCadence a es = true → firesCovered es = true →
      neverCrying s es = true) := by
  constructor
  · intro s d es hp hd hall
    obtain ⟨h1, _, _⟩ := silent_run es s hall hp
    have hds : (run s es).silenceDeadline = some d := by rw [h1, hd]
    exact ⟨hds, by simp [step, hds]⟩
  · intro s a b es hp hc hd hall hmono hcad hcov
    exact cadence_neverCrying es s a b hp hc hd hall hmono hcad hcov

theorem silence_cries_and_cadence_never_cries_witness :
    ((run openedDemo [.audioFrame 1400 [0]]).silenceDeadline
        = some (1000 + SILENCE_TOLERANCE_MS)
      ∧ (step (.timerFired (1000 + SILENCE_TOLERANCE_MS))
            (run openedDemo [.audioFrame 1400 [0]])).babyState = .CRYING)
    ∧ neverCrying openedDemo
        [.audioFrame 1400 [1], .timerFired 3000, .audioFrame 3300 [1]]
        = true :=
  ⟨silence_cries_and_cadence_never_cries.1 openedDemo
      (1000 + SILENCE_TOLERANCE_MS) [.audioFrame 1400 [0]]
      rfl rfl
      (by norm_num [List.all_cons, List.all_nil, silentEvt, isSpeechFrame,
                    sumSquares, SPEECH_THRESHOLD]),
   silence_cries_and_cadence_never_cries.2 openedDemo 1000 1000
      [.audioFrame 1400 [1], .timerFired 3000, .audioFrame 3300 [1]]
      rfl (by decide) rfl (by decide) (by decide)
      (by norm_num [speechCadence, isSpeechEvt, isSpeechFrame, sumSquares,
                    SPEECH_THRESHOLD, eventTime, SILENCE_TOLERANCE_MS])
      (by norm_num [firesCovered, isTimerEvt, List.any_cons, List.any_nil,
                    isSpeechEvt, isSpeechFrame, sumSquares, SPEECH_THRESHOLD])⟩

/-- C6: gapless playout.  The cursor argument ranges over every state
the scheduler can be in, so the first two conjuncts cover every adjacent
pair of a sequence of enqueued chunks: a chunk arriving while the
previous one is still scheduled to be playing starts exactly where the
previous one ends (no gap, no overlap), a chunk arriving after an idle
gap starts immediately at the current time, and so does the very first
chunk after idle.  The last conjunct is the concrete contract: two
chunks enqueued at the same instant have start times separated by
exactly the duration of the first. -/
theorem playback_gapless (cursor now1 now2 d1 d2 : ℚ) (hd1 : 0 ≤ d1) :
    (now2 ≤ (scheduleChunk cursor now1 d1).2 →
      (scheduleChunk (scheduleChunk cursor now1 d1).2 now2 d2).1
        = (scheduleChunk cursor now1 d1).1 + d1)
    ∧ ((scheduleChunk cursor now1 d1).2 < now2 →
      (scheduleChunk (scheduleChunk cursor now1 d1).2 now2 d2).1 = now2)
    ∧ (cursor < now1 → (scheduleChunk cursor now1 d1).1 = now1)
    ∧ (now2 = now1 →
      (scheduleChunk (scheduleChunk cursor now1 d1).2 now2 d2).1
        - (scheduleChunk cursor now1 d1).1 = d1) := by
  have e1 : scheduleChunk cursor now1 d1
      = (if cursor < now1 then now1 else cursor,
         (if cursor < now1 then now1 else cursor) + d1) := rfl
  have e2 : ∀ c : ℚ, scheduleChunk c now2 d2
      = (if c < now2 then now2 else c, (if c < now2 then now2 else c) + d2) :=
    fun c => rfl
  rw [e1, e2]
  dsimp only
  refine ⟨?_, ?_, ?_, ?_⟩
  · intro h
    rw [if_neg (not_lt.mpr h)]
  · intro h
    rw [if_pos h]
  · intro h
    rw [if_pos h]
  · intro h
    have hle : now2 ≤ (if cursor < now1 then now1 else cursor) + d1 := by
      rw [h]
      split_ifs with hc
      · linarith
      · linarith [not_lt.mp hc]
    rw [if_neg (not_lt.mpr hle)]
    ring

theorem playback_gapless_witness :
    (scheduleChunk (scheduleChunk 0 10 (1/2)).2 10 (3/10)).1
      - (scheduleChunk 0 10 (1/2)).1 = 1/2 :=
  (playback_gapless 0 10 10 (1/2) (3/10) (by norm_num)).2.2.2 rfl

/-- Modelled from the spec: the PCM Framer lives in
src/services/audioUtils.ts (createPcmBlob and decodeAudioData, imported
on line 7 of src/App.tsx), a file that is not among the provided
sources.  Per section 4.1 of the design, encode converts each normalized
sample to a fixed-width signed linear integer, clamped to the
representable range, and decode is its inverse; 16-bit linear PCM is the
reference width, so the quantization unit is 1 / 32767.  Clamping of one
sample to the normalized range. -/
def clampSample (x : ℚ) : ℚ := max (-1) (min 1 x)

/-- Modelled from the spec: quantization of one clamped sample to the
signed 16-bit range. -/
def encodeSample (x : ℚ) : ℤ := ⌊clampSample x * 32767⌋

/-- Modelled from the spec: reconstruction of one sample from its
quantized value. -/
def decodeSample (n : ℤ) : ℚ := (n : ℚ) / 32767

/-- Modelled from the spec: samplewise encoding of a frame. -/
def encode (f : List ℚ) : List ℤ := f.map encodeSample

/-- Modelled from the spec: samplewise decoding of a transport frame. -/
def decode (l : List ℤ) : List ℚ := l.map decodeSample

/-- C9: for a frame whose samples lie in the normalized range, decoding
its encoding reproduces it samplewise up to one quantization step,
1 / 32767. -/
theorem pcm_roundtrip (f : List ℚ) (h : ∀ x ∈ f, -1 ≤ x ∧ x ≤ 1) :
    List.Forall₂ (fun y x => |y - x| ≤ 1 / 32767) (decode (encode f)) f := by
  induction f with
  | nil => exact List.Forall₂.nil
  | cons x f ih =>
      rw [show decode (encode (x :: f))
            = decodeSample (encodeSample x) :: decode (encode f) from rfl]
      refine List.Forall₂.cons ?_ (ih fun y hy => h y (List.mem_cons_of_mem x hy))
      obtain ⟨hx1, hx2⟩ := h x (List.mem_cons_self x f)
      have hclamp : clampSample x = x := by
        unfold clampSample
        rw [min_eq_right hx2, max_eq_right hx1]
      have key : decodeSample (encodeSample x) - x
          = ((⌊x * 32767⌋ : ℚ) - x * 32767) / 32767 := by
        unfold decodeSample encodeSample
        rw [hclamp]
        ring
      rw [key, abs_div, abs_of_pos (show (0:ℚ) < 32767 by norm_num)]
      gcongr
      rw [abs_le]
      constructor
      · linarith [Int.lt_floor_add_one (x * 32767)]
      · linarith [Int.floor_le (x * 32767)]

theorem pcm_roundtrip_witness :
    List.Forall₂ (fun y x => |y - x| ≤ 1 / 32767)
      (decode (encode [1/2, -1])) [1/2, -1] :=
  pcm_roundtrip [1/2, -1] (by intro x hx; fin_cases hx <;> norm_num)

end ReadToBaby
